import Mathlib

/-!
Formal verification of the collision-rate table construction and
collision-sampling engine of `MediumMagboltz` (Garfield++).

The development shallowly embeds the relevant routines of
`src/Source/MediumMagboltz.cc` over exact rational arithmetic.  Square
roots, logarithms and trigonometric functions computed by the C++ code are
represented by explicit value parameters constrained by hypotheses
(for a square root `s`: `0 ≤ s ∧ s ^ 2 = x`), so that every definition
stays computable and every theorem quantifies over all possible values of
the transcendental subexpressions.
-/

namespace MediumMagboltz

/-- Number of linear energy bins (`nEnergySteps` in MediumMagboltz.hh). -/
def nEnergySteps : ℕ := 20000

/-- Number of logarithmic energy bins (`nEnergyStepsLog`). -/
def nEnergyStepsLog : ℕ := 200

/-- Fixed capacity of the cross-section term table (`nMaxLevels`). -/
def nMaxLevels : ℕ := 512

/-- Number of electron collision types (`nCsTypes`). -/
def nCsTypes : ℕ := 6

/-! ## Per-bin normalisation of the collision-frequency table (Mixer)

`Mixer` processes every energy bin of the linear grid (lines 1817-1842)
and of the logarithmic grid (lines 1844-1865) with the same three steps:
clamp negative per-level frequencies to zero while accumulating the bin
total, divide each level frequency by the total when the total is
positive, and replace the vector by its running sum. -/

/-- Clamping loop: `if (m_cf[iE][k] < 0.) m_cf[iE][k] = 0.;`. -/
def clampNeg (cfs : List ℚ) : List ℚ :=
  cfs.map (fun c => if c < 0 then 0 else c)

/-- Bin total accumulated by `m_cfTot[iE] += m_cf[iE][k]` over the
clamped frequencies. -/
def binTotal (cfs : List ℚ) : ℚ := (clampNeg cfs).sum

/-- Normalisation step: `if (m_cfTot[iE] > 0.) m_cf[iE][k] /= m_cfTot[iE];`. -/
def normalizeBin (cfs : List ℚ) : List ℚ :=
  let cl := clampNeg cfs
  let tot := cl.sum
  if 0 < tot then cl.map (fun c => c / tot) else cl

/-- Running-sum loop `for (k = 1; ...) m_cf[iE][k] += m_cf[iE][k-1];`,
written with an explicit accumulator. -/
def runningSumFrom (acc : ℚ) : List ℚ → List ℚ
  | [] => []
  | c :: cs => (acc + c) :: runningSumFrom (acc + c) cs

/-- Cumulative-probability vector of one bin as built by `Mixer`. -/
def cumulBin (cfs : List ℚ) : List ℚ :=
  runningSumFrom 0 (normalizeBin cfs)

theorem clampNeg_nonneg (cfs : List ℚ) :
    ∀ c ∈ clampNeg cfs, 0 ≤ c := by
  intro c hc
  simp only [clampNeg, List.mem_map] at hc
  obtain ⟨a, _, rfl⟩ := hc
  by_cases h : a < 0
  · simp [h]
  · simp only [if_neg h]
    linarith

theorem normalizeBin_nonneg (cfs : List ℚ) :
    ∀ c ∈ normalizeBin cfs, 0 ≤ c := by
  intro c hc
  simp only [normalizeBin] at hc
  by_cases h : 0 < (clampNeg cfs).sum
  · simp only [if_pos h, List.mem_map] at hc
    obtain ⟨a, ha, rfl⟩ := hc
    exact div_nonneg (clampNeg_nonneg cfs a ha) (le_of_lt h)
  · simp only [if_neg h] at hc
    exact clampNeg_nonneg cfs c hc

theorem normalizeBin_sum (cfs : List ℚ) (h : 0 < binTotal cfs) :
    (normalizeBin cfs).sum = 1 := by
  have hb : binTotal cfs = (clampNeg cfs).sum := rfl
  rw [hb] at h
  simp only [normalizeBin, if_pos h]
  have : ∀ c : ℚ, c / (clampNeg cfs).sum = c * ((clampNeg cfs).sum)⁻¹ :=
    fun c => div_eq_mul_inv c _
  simp only [this]
  rw [List.sum_map_mul_right]
  have hid : List.map (fun c : ℚ => c) (clampNeg cfs) = clampNeg cfs :=
    List.map_id _
  rw [hid]
  exact mul_inv_cancel₀ (ne_of_gt h)

theorem runningSumFrom_chain (cs : List ℚ) :
    ∀ acc : ℚ, (∀ c ∈ cs, 0 ≤ c) →
      List.Chain (· ≤ ·) acc (runningSumFrom acc cs) := by
  induction cs with
  | nil => intro acc _; simp [runningSumFrom]
  | cons c cs ih =>
    intro acc hnn
    have hc : 0 ≤ c := hnn c (List.mem_cons_self c cs)
    refine List.Chain.cons (by linarith) ?_
    exact ih (acc + c) (fun x hx => hnn x (List.mem_cons_of_mem c hx))

theorem runningSumFrom_getLast (cs : List ℚ) :
    ∀ acc : ℚ, cs ≠ [] →
      (runningSumFrom acc cs).getLast? = some (acc + cs.sum) := by
  induction cs with
  | nil => intro acc h; exact absurd rfl h
  | cons c cs ih =>
    intro acc _
    cases cs with
    | nil => simp [runningSumFrom]
    | cons d ds =>
      have hne : (d :: ds) ≠ ([] : List ℚ) := by simp
      have h2 : runningSumFrom acc (c :: d :: ds)
          = (acc + c) :: runningSumFrom (acc + c) (d :: ds) := rfl
      have h3 : runningSumFrom (acc + c) (d :: ds)
          = (acc + c + d) :: runningSumFrom (acc + c + d) ds := rfl
      rw [h2, h3, List.getLast?_cons_cons, ← h3, ih (acc + c) hne]
      simp only [List.sum_cons, Option.some_inj]
      ring

/-- C1.  For every rate-table bin with positive total rate, the
cumulative-probability vector built by `Mixer` is monotonically
non-decreasing and its last entry equals 1 (exactly, in the rational
embedding). -/
theorem cumulBin_monotone_lastOne (cfs : List ℚ) (h : 0 < binTotal cfs) :
    List.Chain' (· ≤ ·) (cumulBin cfs) ∧
      (cumulBin cfs).getLast? = some 1 := by
  constructor
  · have hch := runningSumFrom_chain (normalizeBin cfs) 0
      (normalizeBin_nonneg cfs)
    have : List.Chain' (· ≤ ·) (0 :: runningSumFrom 0 (normalizeBin cfs)) := hch
    exact this.tail
  · have hne : normalizeBin cfs ≠ [] := by
      intro hnil
      have : (normalizeBin cfs).sum = 1 := normalizeBin_sum cfs h
      rw [hnil] at this
      simp at this
    have := runningSumFrom_getLast (normalizeBin cfs) 0 hne
    rw [cumulBin, this, normalizeBin_sum cfs h]
    norm_num

/-- Witness for C1 on a concrete bin. -/
theorem cumulBin_monotone_lastOne_witness :
    0 < binTotal [3, -1, 1] ∧
      (List.Chain' (· ≤ ·) (cumulBin [3, -1, 1]) ∧
        (cumulBin [3, -1, 1]).getLast? = some 1) := by
  have hpos : 0 < binTotal [3, -1, 1] := by
    norm_num [binTotal, clampNeg]
  exact ⟨hpos, cumulBin_monotone_lastOne [3, -1, 1] hpos⟩

/-! ## Level sampling in GetElectronCollision (lines 641-677)

The sampled uniform value `r` is compared against the first and last
cumulative entries; in between, the level is found by
`std::lower_bound(begin, begin + m_nTerms, r)`.  We embed the libstdc++
binary-search algorithm literally. -/

/-- Binary search of `std::lower_bound` over `get` on the index window
starting at `first` of width `len`: returns the first position whose
entry is not less than `r` (on a partitioned range). -/
def lowerBoundAux (get : ℕ → ℚ) (r : ℚ) (first len : ℕ) : ℕ :=
  if _h : len = 0 then first
  else
    let half := len / 2
    let mid := first + half
    if get mid < r then lowerBoundAux get r (mid + 1) (len - half - 1)
    else lowerBoundAux get r first half
termination_by len
decreasing_by
  · omega
  · omega

/-- Level selection of `GetElectronCollision`: boundary guards, then
`std::lower_bound` over the first `n` cumulative entries. -/
def selectLevel (cf : ℕ → ℚ) (n : ℕ) (r : ℚ) : ℕ :=
  if r ≤ cf 0 then 0
  else if cf (n - 1) ≤ r then n - 1
  else lowerBoundAux cf r 0 n

/-- Modelled from the spec: the first index whose cumulative-probability
entry is `≥ r` (ordered search, lowest index wins on ties). -/
def firstIndexGE (cf : ℕ → ℚ) (n : ℕ) (r : ℚ) : ℕ :=
  (List.range n).findIdx (fun i => decide (r ≤ cf i))

/-- Modelled from the spec: level selection as described by the claim,
with the two boundary overrides. -/
def selectLevelSpec (cf : ℕ → ℚ) (n : ℕ) (r : ℚ) : ℕ :=
  if r ≤ cf 0 then 0
  else if cf (n - 1) ≤ r then n - 1
  else firstIndexGE cf n r

theorem lowerBoundAux_bounds (get : ℕ → ℚ) (r : ℚ) :
    ∀ len first, first ≤ lowerBoundAux get r first len ∧
      lowerBoundAux get r first len ≤ first + len := by
  intro len
  induction len using Nat.strong_induction_on with
  | _ len ih =>
    intro first
    rw [lowerBoundAux]
    by_cases h0 : len = 0
    · simp [h0]
    · simp only [dif_neg h0]
      by_cases hlt : get (first + len / 2) < r
      · simp only [if_pos hlt]
        have := ih (len - len / 2 - 1) (by omega) (first + len / 2 + 1)
        omega
      · simp only [if_neg hlt]
        have := ih (len / 2) (by omega) first
        omega

theorem lowerBoundAux_before (get : ℕ → ℚ) (r : ℚ) :
    ∀ len first,
      (∀ i j, first ≤ i → i ≤ j → j < first + len → get i ≤ get j) →
      ∀ i, first ≤ i → i < lowerBoundAux get r first len → get i < r := by
  intro len
  induction len using Nat.strong_induction_on with
  | _ len ih =>
    intro first hmono i hfi hi
    rw [lowerBoundAux] at hi
    by_cases h0 : len = 0
    · rw [dif_pos h0] at hi; omega
    · rw [dif_neg h0] at hi
      by_cases hlt : get (first + len / 2) < r
      · rw [if_pos hlt] at hi
        by_cases hle : i ≤ first + len / 2
        · have : get i ≤ get (first + len / 2) :=
            hmono i (first + len / 2) hfi hle (by omega)
          linarith
        · exact ih (len - len / 2 - 1) (by omega) (first + len / 2 + 1)
            (fun a b ha hab hb => hmono a b (by omega) hab (by omega))
            i (by omega) hi
      · rw [if_neg hlt] at hi
        exact ih (len / 2) (by omega) first
          (fun a b ha hab hb => hmono a b ha hab (by omega)) i hfi hi

theorem lowerBoundAux_found (get : ℕ → ℚ) (r : ℚ) :
    ∀ len first, lowerBoundAux get r first len < first + len →
      r ≤ get (lowerBoundAux get r first len) := by
  intro len
  induction len using Nat.strong_induction_on with
  | _ len ih =>
    intro first hP
    rw [lowerBoundAux] at hP ⊢
    by_cases h0 : len = 0
    · rw [dif_pos h0] at hP; omega
    · rw [dif_neg h0] at hP ⊢
      by_cases hlt : get (first + len / 2) < r
      · rw [if_pos hlt] at hP ⊢
        exact ih (len - len / 2 - 1) (by omega) (first + len / 2 + 1)
          (by omega)
      · rw [if_neg hlt] at hP ⊢
        by_cases hin : lowerBoundAux get r first (len / 2) < first + len / 2
        · exact ih (len / 2) (by omega) first hin
        · have hb := lowerBoundAux_bounds get r (len / 2) first
          have : lowerBoundAux get r first (len / 2) = first + len / 2 := by
            omega
          rw [this]
          linarith

/-- C2.  The level selected by `GetElectronCollision` is exactly the one
the spec describes: the first index whose cumulative entry is `≥ r`,
with level 0 when `r` is at most the first entry and saturation to
`n - 1` when `r` is at or above the last entry. -/
theorem selectLevel_eq_spec (cf : ℕ → ℚ) (n : ℕ) (r : ℚ)
    (hn : 1 ≤ n) (hmono : ∀ i j, i ≤ j → j < n → cf i ≤ cf j) :
    selectLevel cf n r = selectLevelSpec cf n r := by
  unfold selectLevel selectLevelSpec
  by_cases h1 : r ≤ cf 0
  · simp [h1]
  · rw [if_neg h1, if_neg h1]
    by_cases h2 : cf (n - 1) ≤ r
    · simp [h2]
    · rw [if_neg h2, if_neg h2]
      set P := lowerBoundAux cf r 0 n with hP
      have hbounds := lowerBoundAux_bounds cf r n 0
      have hPn : P < n := by
        by_contra hge
        have hPeq : P = n := by omega
        have hbefore := lowerBoundAux_before cf r n 0
          (fun i j _ hij hj => hmono i j hij (by omega)) (n - 1)
          (by omega) (by omega)
        linarith
      have hfound : r ≤ cf P :=
        lowerBoundAux_found cf r n 0 (by omega)
      have hbefore : ∀ i, i < P → cf i < r :=
        fun i hi => lowerBoundAux_before cf r n 0
          (fun a b _ hab hb => hmono a b hab (by omega)) i (by omega) hi
      symm
      rw [firstIndexGE]
      have hlen : P < (List.range n).length := by
        rwa [List.length_range]
      rw [List.findIdx_eq hlen]
      constructor
      · simp only [List.getElem_range, decide_eq_true_eq]
        exact hfound
      · intro j hj
        simp only [List.getElem_range]
        exact decide_eq_false (not_le.mpr (hbefore j hj))

/-- Witness for C2 at a concrete cumulative table. -/
theorem selectLevel_eq_spec_witness :
    (1 ≤ 3 ∧ ∀ i j, i ≤ j → j < 3 →
        (fun k => if k = 0 then (1 : ℚ)/4 else if k = 1 then 1/2 else 1) i ≤
        (fun k => if k = 0 then (1 : ℚ)/4 else if k = 1 then 1/2 else 1) j) ∧
      selectLevel
        (fun k => if k = 0 then (1 : ℚ)/4 else if k = 1 then 1/2 else 1)
        3 (1/3) =
      selectLevelSpec
        (fun k => if k = 0 then (1 : ℚ)/4 else if k = 1 then 1/2 else 1)
        3 (1/3) := by
  have hmono : ∀ i j, i ≤ j → j < 3 →
      (fun k => if k = 0 then (1 : ℚ)/4 else if k = 1 then 1/2 else 1) i ≤
      (fun k => if k = 0 then (1 : ℚ)/4 else if k = 1 then 1/2 else 1) j := by
    intro i j hij hj
    interval_cases j <;> interval_cases i <;> norm_num
  exact ⟨⟨by norm_num, hmono⟩,
    selectLevel_eq_spec _ 3 (1/3) (by norm_num) hmono⟩

/-! ## Total-rate scaling per bin (Mixer, lines 1835-1841 and 1859-1864)

The linear grid scales the accumulated bin total by `sqrt(ekin)` and,
above 1000 eV, by `sqrt(1 + 0.5*re)/(1 + re)` with `re = ekin/emass`.
The logarithmic grid scales by `sqrt(ekin) * sqrt(1 + re)/(1 + re)`
unconditionally and then stores the logarithm of the result.  Square
roots are passed as explicit values; the electron mass (a physical
constant defined outside this repository) is a positive parameter. -/

/-- Linear-grid bin total after scaling: `m_cfTot[iE] *= sqrt(ekin);`
then, if `ekin > 1.e3`, `m_cfTot[iE] *= sqrt(1. + 0.5*re)/(1. + re)`.
`sqrtEkin` stands for `sqrt(ekin)` and `sqrtRelHalf` for
`sqrt(1. + 0.5*re)`. -/
def cfTotLinear (cfs : List ℚ) (ekin emass sqrtEkin sqrtRelHalf : ℚ) : ℚ :=
  let tot := binTotal cfs * sqrtEkin
  if 1000 < ekin then tot * (sqrtRelHalf / (1 + ekin / emass)) else tot

/-- Logarithmic-grid bin rate before the final `log`:
`m_cfTotLog[iE] *= sqrt(ekin) * sqrt(1. + re)/(1. + re);`.
`sqrtRelFull` stands for `sqrt(1. + re)`. -/
def cfTotLogRate (cfs : List ℚ) (ekin emass sqrtEkin sqrtRelFull : ℚ) : ℚ :=
  binTotal cfs * (sqrtEkin * sqrtRelFull / (1 + ekin / emass))

/-- Modelled from the spec: total rate per bin = sum over levels scaled
by `sqrt(kineticEnergy)`; above 1000 eV additionally multiplied by
`sqrt(1 + 0.5*re)/(1 + re)` with `re = E/electronMass`. -/
def cfTotClaimed (cfs : List ℚ) (ekin emass sqrtEkin sqrtRelHalf : ℚ) : ℚ :=
  if 1000 < ekin then
    binTotal cfs * sqrtEkin * (sqrtRelHalf / (1 + ekin / emass))
  else binTotal cfs * sqrtEkin

/-- C3 as stated: on both grids the bin total equals the spec formula
(log-grid bin energies always exceed `m_eHigh` = 1e4 eV). -/
def claimC3 : Prop :=
  ∀ (cfs : List ℚ) (ekin emass sE sH sF : ℚ),
    0 < emass → 0 < ekin →
    0 ≤ sE → sE ^ 2 = ekin →
    0 ≤ sH → sH ^ 2 = 1 + ekin / emass / 2 →
    0 ≤ sF → sF ^ 2 = 1 + ekin / emass →
    cfTotLinear cfs ekin emass sE sH = cfTotClaimed cfs ekin emass sE sH ∧
    (10000 < ekin →
      cfTotLogRate cfs ekin emass sE sF = cfTotClaimed cfs ekin emass sE sH)

/-- C3 is false: at a logarithmic bin the code multiplies by
`sqrt(1 + re)/(1 + re)`, not `sqrt(1 + 0.5*re)/(1 + re)`.  Concrete
instance: one level with frequency 1, `ekin` = 57600, `emass` = 1200
(`re` = 48), so the code rate is `240·7/49` while the claimed rate is
`240·5/49`. -/
theorem claimC3_false : claimC3 = False := by
  apply eq_false
  intro h
  have h2 := (h [1] 57600 1200 240 5 7 (by norm_num) (by norm_num)
    (by norm_num) (by norm_num) (by norm_num) (by norm_num)
    (by norm_num) (by norm_num)).2 (by norm_num)
  rw [cfTotLogRate, cfTotClaimed, binTotal] at h2
  norm_num [clampNeg] at h2

/-- C3 amended.  The linear grid follows the claimed formula exactly;
the logarithmic grid instead scales every bin by
`sqrt(ekin)·sqrt(1 + re)/(1 + re)`, i.e. its rate is the non-negative
solution of `rate² = total²·ekin/(1 + re)` (the stored table entry is
the logarithm of this rate). -/
theorem cfTot_amended (cfs : List ℚ) (ekin emass sE sH sF : ℚ)
    (hm : 0 < emass) (he : 0 < ekin)
    (hsE : 0 ≤ sE) (hsE2 : sE ^ 2 = ekin)
    (hsF : 0 ≤ sF) (hsF2 : sF ^ 2 = 1 + ekin / emass) :
    cfTotLinear cfs ekin emass sE sH = cfTotClaimed cfs ekin emass sE sH ∧
    cfTotLogRate cfs ekin emass sE sF ^ 2 * (1 + ekin / emass) =
      binTotal cfs ^ 2 * ekin ∧
    (0 ≤ binTotal cfs → 0 ≤ cfTotLogRate cfs ekin emass sE sF) := by
  have hre : 0 < 1 + ekin / emass := by positivity
  refine ⟨?_, ?_, ?_⟩
  · unfold cfTotLinear cfTotClaimed
    by_cases hc : 1000 < ekin
    · simp only [if_pos hc]
    · simp only [if_neg hc]
  · have h1 : (1 + ekin / emass) ≠ 0 := ne_of_gt hre
    unfold cfTotLogRate
    rw [mul_pow, div_pow, mul_pow, hsE2, hsF2]
    field_simp
    ring
  · intro htot
    unfold cfTotLogRate
    positivity

/-- Witness for the amended C3 at the concrete log bin used above. -/
theorem cfTot_amended_witness :
    ((0 : ℚ) < 1200 ∧ (0 : ℚ) < 57600 ∧ (0 : ℚ) ≤ 240 ∧
      (240 : ℚ) ^ 2 = 57600 ∧ (0 : ℚ) ≤ 7 ∧
      (7 : ℚ) ^ 2 = 1 + 57600 / 1200) ∧
    (cfTotLinear [1] 57600 1200 240 5 = cfTotClaimed [1] 57600 1200 240 5 ∧
      cfTotLogRate [1] 57600 1200 240 7 ^ 2 * (1 + 57600 / 1200) =
        binTotal [1] ^ 2 * 57600 ∧
      (0 ≤ binTotal [1] → 0 ≤ cfTotLogRate [1] 57600 1200 240 7)) := by
  refine ⟨⟨by norm_num, by norm_num, by norm_num, by norm_num,
    by norm_num, by norm_num⟩, ?_⟩
  exact cfTot_amended [1] 57600 1200 240 5 7 (by norm_num) (by norm_num)
    (by norm_num) (by norm_num) (by norm_num) (by norm_num)

/-! ## Post-collision energy (GetElectronCollision, lines 765 and 788-796)

`if (e < loss) loss = e - 0.0001;` followed by
`arg = max(1 - s1*loss/e, Small)`, `d = 1 - ctheta0*sqrt(arg)`,
`e1 = max(e*(1 - loss/(s1*e) - 2*d/s2), Small)` with
`s2 = s1²/(s1-1)`.  `small` stands for the floor constant `Small`
(defined outside this repository; the spec only requires it to be a
tiny positive number), `sqrtArg` for the value of `sqrt(arg)`. -/

/-- Energy-loss clamp `if (e < loss) loss = e - 0.0001;`. -/
def clampLoss (e loss : ℚ) : ℚ := if e < loss then e - 1/10000 else loss

/-- The argument `arg = std::max(1. - s1 * loss / e, Small)` (with the
already clamped loss). -/
def argOf (e loss s1 small : ℚ) : ℚ := max (1 - s1 * loss / e) small

/-- Post-collision energy `e1` of the binary-collision kinematics. -/
def postCollisionEnergy (e loss s1 ctheta0 sqrtArg small : ℚ) : ℚ :=
  let lossC := clampLoss e loss
  let s2 := s1 * s1 / (s1 - 1)
  let d := 1 - ctheta0 * sqrtArg
  max (e * (1 - lossC / (s1 * e) - 2 * d / s2)) small

/-- C4 as stated: for every incoming energy `e > 0`, any level (any
energy loss) and any sampled angle, `0 < e1 ≤ e`. -/
def claimC4 : Prop :=
  ∀ (e loss s1 ctheta0 sqrtArg small : ℚ),
    0 < e → 1 < s1 → -1 ≤ ctheta0 → ctheta0 ≤ 1 →
    0 < small → small < 1 →
    0 ≤ sqrtArg → sqrtArg ^ 2 = argOf e (clampLoss e loss) s1 small →
    0 < postCollisionEnergy e loss s1 ctheta0 sqrtArg small ∧
    postCollisionEnergy e loss s1 ctheta0 sqrtArg small ≤ e

/-- C4 is false for super-elastic levels, whose stored energy loss is
negative (`eIn[j] < 0`): with `e = 1`, `loss = -3/2`, `s1 = 2`,
forward scattering `ctheta0 = 1`, the post-collision energy is
`9/4 > e`. -/
theorem claimC4_false : claimC4 = False := by
  apply eq_false
  intro h
  have h2 := (h 1 (-3/2) 2 1 2 (1/10^20) (by norm_num) (by norm_num)
    (by norm_num) (by norm_num) (by norm_num) (by norm_num) (by norm_num)
    (by norm_num [argOf, clampLoss])).2
  rw [postCollisionEnergy] at h2
  norm_num [clampLoss] at h2

/-- C4 amended: for levels with non-negative energy loss (all types
except super-elastic collisions) and incoming energy at least the clamp
margin `0.0001` and the floor `Small`, the post-collision energy
satisfies `Small ≤ e1 ≤ e`, hence `0 < e1 ≤ e`. -/
theorem postCollisionEnergy_bounds (e loss s1 ctheta0 sqrtArg small : ℚ)
    (he : 1/10000 ≤ e) (hloss : 0 ≤ loss) (hs1 : 1 < s1)
    (hc0 : -1 ≤ ctheta0) (hc1 : ctheta0 ≤ 1)
    (hsm0 : 0 < small) (hsm1 : small < 1) (hsme : small ≤ e)
    (hsq0 : 0 ≤ sqrtArg)
    (hsq2 : sqrtArg ^ 2 = argOf e (clampLoss e loss) s1 small) :
    0 < postCollisionEnergy e loss s1 ctheta0 sqrtArg small ∧
    postCollisionEnergy e loss s1 ctheta0 sqrtArg small ≤ e := by
  have hepos : 0 < e := lt_of_lt_of_le (by norm_num) he
  have hlc0 : 0 ≤ clampLoss e loss := by
    rw [clampLoss]
    by_cases hel : e < loss
    · rw [if_pos hel]; linarith
    · rw [if_neg hel]; exact hloss
  have harg1 : argOf e (clampLoss e loss) s1 small ≤ 1 := by
    rw [argOf]
    have : 0 ≤ s1 * clampLoss e loss / e :=
      div_nonneg (mul_nonneg (by linarith) hlc0) (le_of_lt hepos)
    exact max_le (by linarith) (le_of_lt hsm1)
  have hsq1 : sqrtArg ≤ 1 := by nlinarith
  have hd : 0 ≤ 1 - ctheta0 * sqrtArg := by nlinarith
  have hs2 : 0 < s1 * s1 / (s1 - 1) := by
    apply div_pos <;> nlinarith
  constructor
  · rw [postCollisionEnergy]
    exact lt_max_of_lt_right hsm0
  · rw [postCollisionEnergy]
    apply max_le _ hsme
    have h1 : 0 ≤ clampLoss e loss / (s1 * e) :=
      div_nonneg hlc0 (mul_nonneg (by linarith) (le_of_lt hepos))
    have h2 : 0 ≤ 2 * (1 - ctheta0 * sqrtArg) / (s1 * s1 / (s1 - 1)) :=
      div_nonneg (by linarith) (le_of_lt hs2)
    nlinarith

/-- Witness for the amended C4 at a concrete collision. -/
theorem postCollisionEnergy_bounds_witness :
    ((1 : ℚ)/10000 ≤ 1 ∧ (0 : ℚ) ≤ 1/2 ∧ (1 : ℚ) < 2 ∧
      (-1 : ℚ) ≤ 0 ∧ (0 : ℚ) ≤ 1 ∧ (0 : ℚ) < 1/100 ∧ (1 : ℚ)/100 < 1 ∧
      (1 : ℚ)/100 ≤ 1 ∧ (0 : ℚ) ≤ 1/10 ∧
      (1/10 : ℚ) ^ 2 = argOf 1 (clampLoss 1 (1/2)) 2 (1/100)) ∧
    (0 < postCollisionEnergy 1 (1/2) 2 0 (1/10) (1/100) ∧
      postCollisionEnergy 1 (1/2) 2 0 (1/10) (1/100) ≤ 1) := by
  have hsq : (1/10 : ℚ) ^ 2 = argOf 1 (clampLoss 1 (1/2)) 2 (1/100) := by
    norm_num [argOf, clampLoss]
  refine ⟨⟨by norm_num, by norm_num, by norm_num, by norm_num, by norm_num,
    by norm_num, by norm_num, by norm_num, by norm_num, hsq⟩, ?_⟩
  exact postCollisionEnergy_bounds 1 (1/2) 2 0 (1/10) (1/100) (by norm_num)
    (by norm_num) (by norm_num) (by norm_num) (by norm_num) (by norm_num)
    (by norm_num) (by norm_num) (by norm_num) hsq

/-! ## The argon de-excitation channel table (ComputeDeexcitationTable)

The per-species knowledge base (lines 2096-2345 for the radiative
channels, 2423-2590 for the intra-argon collisional channels of a pure
argon mixture with `useCollMixing` and `useHornbeckMolnar` enabled) is
transcribed as a finite graph: for every level the ordered list of
channels, each a final level (`none` is `-1`: ground state for radiative
channels, ionisation/loss for collisional ones) paired with its type
(`DxcTypeRad` / `DxcTypeCollIon` / `DxcTypeCollNonIon`).  The `b`
suffix in constructor names transliterates the primes (`!`) of the
spectroscopic labels. -/

/-- Internal argon level names of `levelNamesAr`, plus the synthetic
dimer and excimer sink levels. -/
inductive ArLevel
  | ar1S5 | ar1S4 | ar1S3 | ar1S2
  | ar2P10 | ar2P9 | ar2P8 | ar2P7 | ar2P6
  | ar2P5 | ar2P4 | ar2P3 | ar2P2 | ar2P1
  | ar3D6 | ar3D5 | ar3D3 | ar3D4b | ar3D4 | ar3D1bb | ar2S5 | ar2S4
  | ar3D1b | ar3D2 | ar3S1bbbb | ar3S1bb | ar3S1bbb | ar2S3 | ar2S2 | ar3S1b
  | ar4D5 | ar3S4 | ar4D2 | ar4S1b | ar3S2 | ar5D5 | ar4S4 | ar5D2 | ar6D5
  | ar5S1b | ar4S2 | ar5S4 | ar6D2 | arHigher
  | arDimer | arExcimer
  deriving DecidableEq, Fintype

/-- De-excitation channel types (`DxcTypeRad` = 0, `DxcTypeCollIon` = 1,
`DxcTypeCollNonIon` = -1 in the source). -/
inductive DxcType
  | rad | collIon | collNonIon
  deriving DecidableEq, Fintype

/-- The vector `levelsAr4s` = `{Ar_1S5, Ar_1S4, Ar_1S3, Ar_1S2}`. -/
def levels4s : List ArLevel := [.ar1S5, .ar1S4, .ar1S3, .ar1S2]

/-- The vector `levels4p` = `{Ar_2P10, ..., Ar_2P1}`. -/
def levels4p : List ArLevel :=
  [.ar2P10, .ar2P9, .ar2P8, .ar2P7, .ar2P6,
   .ar2P5, .ar2P4, .ar2P3, .ar2P2, .ar2P1]

/-- Radiative channels to the given final levels. -/
def radTo (ls : List (Option ArLevel)) : List (Option ArLevel × DxcType) :=
  ls.map (fun l => (l, DxcType.rad))

/-- Collisional (non-ionising) transfer channels to the given levels. -/
def nonIonTo (ls : List ArLevel) : List (Option ArLevel × DxcType) :=
  ls.map (fun l => (some l, DxcType.collNonIon))

/-- Channel list of every level: the radiative channels of the static
table followed by the collisional channels appended for a pure argon
mixture (excimer formation and 1S5/1S3 collisional mixing, transfer
within the 4p group, transfer to the 4s and 4p groups, Hornbeck-Molnar
associative ionisation into the dimer level). -/
def arChannels : ArLevel → List (Option ArLevel × DxcType)
  | .ar1S5 => nonIonTo [.arExcimer, .ar1S4]
  | .ar1S4 => radTo [none]
  | .ar1S3 => nonIonTo [.arExcimer, .ar1S4]
  | .ar1S2 => radTo [none]
  | .ar2P10 => radTo (levels4s.map some) ++ nonIonTo levels4s
  | .ar2P9 => radTo [some .ar1S5] ++ nonIonTo [.ar2P8, .ar2P10] ++
      nonIonTo levels4s
  | .ar2P8 => radTo [some .ar1S5, some .ar1S4, some .ar1S2] ++
      nonIonTo [.ar2P6, .ar2P7, .ar2P9, .ar2P10] ++ nonIonTo levels4s
  | .ar2P7 => radTo (levels4s.map some) ++
      nonIonTo [.ar2P6, .ar2P8, .ar2P9] ++ nonIonTo levels4s
  | .ar2P6 => radTo [some .ar1S5, some .ar1S4, some .ar1S2] ++
      nonIonTo [.ar2P7, .ar2P8, .ar2P9]
  | .ar2P5 => radTo [some .ar1S4] ++ nonIonTo [.ar2P4, .ar2P6, .ar2P8]
  | .ar2P4 => radTo (levels4s.map some) ++
      nonIonTo [.ar2P3, .ar2P5, .ar2P6, .ar2P7, .ar2P8, .ar2P9] ++
      nonIonTo levels4s
  | .ar2P3 => radTo [some .ar1S5, some .ar1S4, some .ar1S2] ++
      nonIonTo [.ar2P4, .ar2P5, .ar2P6, .ar2P7, .ar2P8, .ar2P9] ++
      nonIonTo levels4s
  | .ar2P2 => radTo (levels4s.map some) ++ nonIonTo [.ar2P3] ++
      nonIonTo levels4s
  | .ar2P1 => radTo [some .ar1S4, some .ar1S2] ++ nonIonTo levels4s
  | .ar3D6 => radTo [some .ar2P10, some .ar2P7, some .ar2P4, some .ar2P2] ++
      nonIonTo levels4p
  | .ar3D5 => radTo [some .ar2P10, some .ar2P8, some .ar2P7, some .ar2P6,
      some .ar2P5, some .ar2P4, some .ar2P3, some .ar2P2, some .ar2P1,
      none] ++ nonIonTo levels4p
  | .ar3D3 => radTo [some .ar2P10, some .ar2P9, some .ar2P8, some .ar2P7,
      some .ar2P6, some .ar2P4, some .ar2P3, some .ar2P2] ++
      nonIonTo levels4p
  | .ar3D4b => radTo [some .ar2P9] ++ nonIonTo levels4p
  | .ar3D4 => radTo [some .ar2P9, some .ar2P8, some .ar2P6, some .ar2P3] ++
      nonIonTo levels4p
  | .ar3D1bb => radTo [some .ar2P10, some .ar2P9, some .ar2P8, some .ar2P7,
      some .ar2P6, some .ar2P4, some .ar2P3, some .ar2P2] ++
      nonIonTo levels4p
  | .ar2S5 => radTo [some .ar2P10, some .ar2P9, some .ar2P8, some .ar2P7,
      some .ar2P6, some .ar2P4, some .ar2P3, some .ar2P2] ++
      nonIonTo levels4p
  | .ar2S4 => radTo [none, some .ar2P10, some .ar2P8, some .ar2P7,
      some .ar2P6, some .ar2P5, some .ar2P4, some .ar2P3, some .ar2P2,
      some .ar2P1] ++ nonIonTo levels4p
  | .ar3D1b => radTo [some .ar2P9, some .ar2P8, some .ar2P6, some .ar2P3] ++
      nonIonTo levels4p
  | .ar3D2 => radTo [none, some .ar2P10, some .ar2P8, some .ar2P7,
      some .ar2P6, some .ar2P5, some .ar2P4, some .ar2P3, some .ar2P2,
      some .ar2P1] ++ nonIonTo levels4p
  | .ar3S1bbbb => radTo [some .ar2P10, some .ar2P9, some .ar2P8,
      some .ar2P7, some .ar2P6, some .ar2P4, some .ar2P3, some .ar2P2] ++
      nonIonTo levels4p
  | .ar3S1bb => radTo [some .ar2P10, some .ar2P9, some .ar2P8, some .ar2P7,
      some .ar2P6, some .ar2P4, some .ar2P3, some .ar2P2] ++
      nonIonTo levels4p
  | .ar3S1bbb => radTo [some .ar2P9, some .ar2P8, some .ar2P6,
      some .ar2P3] ++ nonIonTo levels4p
  | .ar2S3 => radTo [some .ar2P10, some .ar2P7, some .ar2P4, some .ar2P2] ++
      nonIonTo levels4p
  | .ar2S2 => radTo [none, some .ar2P10, some .ar2P8, some .ar2P7,
      some .ar2P6, some .ar2P5, some .ar2P4, some .ar2P3, some .ar2P2,
      some .ar2P1] ++ nonIonTo levels4p
  | .ar3S1b => radTo [none, some .ar2P10, some .ar2P8, some .ar2P7,
      some .ar2P6, some .ar2P5, some .ar2P4, some .ar2P3, some .ar2P2,
      some .ar2P1] ++ nonIonTo levels4p
  | .ar4D5 => radTo [some .ar2P10, some .ar2P8, some .ar2P6, some .ar2P5,
      some .ar2P3, some .ar2P2, none] ++ nonIonTo levels4p ++
      [(some .arDimer, DxcType.collIon)]
  | .ar3S4 => radTo [some .ar2P10, some .ar2P8, some .ar2P7, some .ar2P6,
      some .ar2P5, some .ar2P4, some .ar2P3, some .ar2P2, some .ar2P1,
      none] ++ nonIonTo levels4p ++ [(some .arDimer, DxcType.collIon)]
  | .ar4D2 => radTo [some .ar2P7, none] ++ nonIonTo levels4p ++
      [(some .arDimer, DxcType.collIon)]
  | .ar4S1b => radTo [some .ar2P10, some .ar2P8, some .ar2P7, some .ar2P6,
      some .ar2P5, some .ar2P3, none] ++ nonIonTo levels4p ++
      [(some .arDimer, DxcType.collIon)]
  | .ar3S2 => radTo [some .ar2P10, some .ar2P8, some .ar2P7, some .ar2P6,
      some .ar2P5, some .ar2P4, some .ar2P3, some .ar2P2, some .ar2P1,
      none] ++ nonIonTo levels4p ++ [(some .arDimer, DxcType.collIon)]
  | .ar5D5 => radTo [some .ar2P10, some .ar2P8, some .ar2P7, some .ar2P6,
      some .ar2P5, some .ar2P4, some .ar2P3, some .ar2P2, none] ++
      nonIonTo levels4p ++ [(some .arDimer, DxcType.collIon)]
  | .ar4S4 => radTo [some .ar2P10, some .ar2P8, some .ar2P7, some .ar2P6,
      some .ar2P5, some .ar2P4, none] ++ nonIonTo levels4p ++
      [(some .arDimer, DxcType.collIon)]
  | .ar5D2 => radTo [some .ar2P8, some .ar2P7, some .ar2P5, some .ar2P2,
      none] ++ nonIonTo levels4p ++ [(some .arDimer, DxcType.collIon)]
  | .ar6D5 => radTo [some .ar2P10, some .ar2P6, some .ar2P5, some .ar2P4,
      some .ar2P3, some .ar2P1, none] ++ nonIonTo levels4p ++
      [(some .arDimer, DxcType.collIon)]
  | .ar5S1b => radTo [some .ar2P5, none] ++ nonIonTo levels4p ++
      [(some .arDimer, DxcType.collIon)]
  | .ar4S2 => radTo [some .ar2P10, some .ar2P8, some .ar2P7, some .ar2P5,
      some .ar2P4, some .ar2P3, some .ar2P2, none] ++ nonIonTo levels4p ++
      [(some .arDimer, DxcType.collIon)]
  | .ar5S4 => radTo [some .ar2P8, some .ar2P6, some .ar2P4, some .ar2P3,
      some .ar2P2, none] ++ nonIonTo levels4p ++
      [(some .arDimer, DxcType.collIon)]
  | .ar6D2 => radTo [some .ar2P7, none] ++ nonIonTo levels4p ++
      [(some .arDimer, DxcType.collIon)]
  | .arHigher => nonIonTo [.ar6D5, .ar5S1b, .ar4S2, .ar5S4, .ar6D2]
  | .arDimer => []
  | .arExcimer => []

/-- A decay channel from `l` to the excited level `m` (of any type). -/
def arEdge (l m : ArLevel) : Prop :=
  ∃ t : DxcType, (some m, t) ∈ arChannels l

instance (l m : ArLevel) : Decidable (arEdge l m) := by
  unfold arEdge; infer_instance

/-- A radiative decay channel from `l` to the excited level `m`. -/
def arRadEdge (l m : ArLevel) : Prop :=
  (some m, DxcType.rad) ∈ arChannels l

instance (l m : ArLevel) : Decidable (arRadEdge l m) := by
  unfold arRadEdge; infer_instance

/-- Shell rank of a level: 4s levels (and ground via `none`) lowest,
4p levels next, everything above them rank 2. -/
def arRank : ArLevel → ℕ
  | .ar1S5 | .ar1S4 | .ar1S3 | .ar1S2 => 0
  | .ar2P10 | .ar2P9 | .ar2P8 | .ar2P7 | .ar2P6
  | .ar2P5 | .ar2P4 | .ar2P3 | .ar2P2 | .ar2P1 => 1
  | _ => 2

/-- A decay path following radiative channels only. -/
inductive ArRadPath : ArLevel → List ArLevel → Prop
  | nil (l : ArLevel) : ArRadPath l []
  | cons {l m : ArLevel} {ls : List ArLevel} :
      arRadEdge l m → ArRadPath m ls → ArRadPath l (m :: ls)

/-- C5 as stated: no decay path through the per-species channel table
revisits a level, i.e. the channel graph is acyclic. -/
def claimC5 : Prop :=
  ∀ l : ArLevel, ¬ Relation.TransGen arEdge l l

/-- C5 is false: the collisional population-transfer channels within the
4p group form cycles; concretely `Ar_2P3 → Ar_2P4` (rate `k34`) and
`Ar_2P4 → Ar_2P3` (rate `k43`) are both in the table. -/
theorem claimC5_false : claimC5 = False := by
  apply eq_false
  intro h
  exact h ArLevel.ar2P3
    (Relation.TransGen.head (b := ArLevel.ar2P4) (by decide)
      (Relation.TransGen.single (by decide)))

/-- C5 amended: the full channel graph is cyclic, so the cascade
walker's step count is not bounded by a graph depth; but every radiative
channel strictly decreases the shell rank, so the radiative subgraph is
acyclic and any radiative-only decay path makes at most 2 transitions
(the rank of its starting level). -/
theorem arRadiative_acyclic_depth :
    (∀ l m : ArLevel, arRadEdge l m → arRank m < arRank l) ∧
    ∀ (l : ArLevel) (ls : List ArLevel), ArRadPath l ls →
      ls.length ≤ arRank l := by
  have hrank : ∀ l m : ArLevel, arRadEdge l m → arRank m < arRank l := by
    decide
  refine ⟨hrank, ?_⟩
  intro l ls hpath
  induction hpath with
  | nil => simp
  | cons hedge _ ih =>
    simp only [List.length_cons]
    have := hrank _ _ hedge
    omega

/-! ## Session state and the sampling/query entry points

The mutable state of the `MediumMagboltz` object, restricted to the
fields the embedded routines read or write.  Random draws and
transcendental subexpressions (`log`, `tan`/`atan` of the secondary
energy models, the cube root of the Penning displacement, the square
root of the kinematics) are supplied through an oracle record; the
theorems quantify over all oracle values, constrained where needed. -/

/-- De-excitation product type (`DxcProdTypePhoton`/`DxcProdTypeElectron`). -/
inductive DxcProdType
  | photon | electron
  deriving DecidableEq

/-- One de-excitation product (`struct dxcProd`). -/
structure DxcProd where
  s : ℚ
  t : ℚ
  prodType : DxcProdType
  energy : ℚ
  deriving DecidableEq

/-- Tag of an ionisation secondary
(`IonProdTypeElectron`/`IonProdTypeIon`). -/
inductive SecondaryTag
  | electron | ion
  deriving DecidableEq

/-- The session state: the member variables of `MediumMagboltz` used by
the embedded routines.  Tables indexed per bin and level are total
functions; the six per-type collision counters are a function on
`0..5`. -/
structure SessionState where
  eFinal : ℚ
  eStep : ℚ
  eHigh : ℚ
  lnStep : ℚ
  useAutoAdjust : Bool
  isChanged : Bool
  nTerms : ℕ
  cf : ℕ → ℕ → ℚ
  cfLog : ℕ → ℕ → ℚ
  cfTot : List ℚ
  cfTotLog : List ℚ
  cfNull : ℚ
  csType : ℕ → ℕ
  energyLoss : ℕ → ℚ
  rgas : ℕ → ℚ
  rPenning : ℕ → ℚ
  lambdaPenning : ℕ → ℚ
  minIonPot : ℚ
  usePenning : Bool
  useDeexcitation : Bool
  iDeexcitation : ℕ → ℤ
  nCollisions : ℕ → ℕ
  nCollisionsDetailed : ℕ → ℕ
  nPenning : ℕ
  dxcProducts : List DxcProd

/-- C++ `int` cast of a floating value: truncation towards zero. -/
def truncQ (q : ℚ) : ℤ := if q < 0 then -((-q).floor) else q.floor

/-- `SetMaxElectronEnergy` (lines 84-109): rejects values at most
`Small` without mutating; otherwise sets the energy range and step and
marks the tables dirty. -/
def setMaxElectronEnergy (small : ℚ) (s : SessionState) (en : ℚ) :
    SessionState :=
  if en ≤ small then s
  else
    { s with
      eFinal := en
      eStep := if en ≤ s.eHigh then en / nEnergySteps else s.eHigh / nEnergySteps
      isChanged := true }

/-- Oracle for one `GetElectronCollision` call: the outcome of a
`Mixer()` rebuild if one is triggered, the uniform draws, and the
values of the transcendental subexpressions. -/
structure CollisionOracle where
  mixerOutcome : Bool × SessionState
  rLevel : ℚ
  logRatio : ℚ
  esecIon : ℚ
  rPenningDraw : ℚ
  cubeRootU : ℚ
  dxcResult : List DxcProd
  dxcPenning : ℕ
  ctheta0 : ℚ
  sqrtArg : ℚ
  logInterp : ℚ

/-- Outputs of one `GetElectronCollision` call (reference parameters
and return value; the post-collision direction, which touches no
session state, is omitted). -/
structure CollisionOutcome where
  success : Bool
  errorReported : Bool
  collisionType : ℕ
  level : ℕ
  e1 : ℚ
  secondaries : List (SecondaryTag × ℚ)
  ndxc : ℕ

/-- Linear-grid bin index
`std::min(std::max(int(e / m_eStep), 0), nEnergySteps - 1)`. -/
def linBinIdx (s : SessionState) (e : ℚ) : ℕ :=
  (min (max (truncQ (e / s.eStep)) 0) (nEnergySteps - 1)).toNat

/-- Logarithmic-grid bin index; `o.logRatio` carries `log(e / m_eHigh)`. -/
def logBinIdx (s : SessionState) (o : CollisionOracle) : ℕ :=
  (min (max (truncQ (o.logRatio / s.lnStep)) 0) (nEnergyStepsLog - 1)).toNat

/-- Cumulative-probability row of the bin `GetElectronCollision`
samples from (linear below `m_eHigh`, logarithmic above). -/
def gecBinRow (s : SessionState) (e : ℚ) (o : CollisionOracle) : ℕ → ℚ :=
  if e ≤ s.eHigh then s.cf (linBinIdx s e) else s.cfLog (logBinIdx s o)

/-- The level sampled by `GetElectronCollision`. -/
def gecLevel (s : SessionState) (e : ℚ) (o : CollisionOracle) : ℕ :=
  selectLevel (gecBinRow s e o) s.nTerms o.rLevel

/-- Core of `GetElectronCollision` (lines 644-833) once energy
validation and the rebuild check passed: sample the level, increment
the two collision counters, act on the collision type (ionisation
secondaries; excitation de-excitation/Penning handling), clamp the loss
and compute the post-collision energy. -/
def gecSample (small : ℚ) (s : SessionState) (e : ℚ) (o : CollisionOracle) :
    CollisionOutcome × SessionState :=
  let lv := gecLevel s e o
  let typ := s.csType lv % nCsTypes
  let igas := s.csType lv / nCsTypes
  let s1 := { s with
    nCollisions := Function.update s.nCollisions typ (s.nCollisions typ + 1)
    nCollisionsDetailed :=
      Function.update s.nCollisionsDetailed lv (s.nCollisionsDetailed lv + 1) }
  let loss0 := s.energyLoss lv
  let step :
      ℚ × List (SecondaryTag × ℚ) × ℕ × SessionState :=
    if typ = 1 then
      -- Ionisation: sample the secondary energy (Opal-Beaty-Peterson,
      -- Green-Sawada or flat; the sampled value arrives via the oracle),
      -- floor it, add it to the loss, emit the electron/ion pair.
      let esec := if o.esecIon ≤ 0 then small else o.esecIon
      (loss0 + esec, [(SecondaryTag.electron, esec), (SecondaryTag.ion, 0)],
        0, s1)
    else if typ = 4 then
      if s.useDeexcitation ∧ 0 ≤ s.iDeexcitation lv then
        -- Full de-excitation cascade (walker verified separately).
        (loss0, [], o.dxcResult.length,
          { s1 with dxcProducts := o.dxcResult
                    nPenning := s1.nPenning + o.dxcPenning })
      else if s.usePenning then
        if s.minIonPot < s.energyLoss lv * s.rgas igas ∧
            o.rPenningDraw < s.rPenning lv then
          let esec0 := s.energyLoss lv * s.rgas igas - s.minIonPot
          let esec := if esec0 ≤ 0 then small else esec0
          let sProd := if small < s.lambdaPenning lv then
            s.lambdaPenning lv * o.cubeRootU else 0
          (loss0, [], 1,
            { s1 with
              dxcProducts := [⟨sProd, 0, DxcProdType.electron, esec⟩]
              nPenning := s1.nPenning + 1 })
        else (loss0, [], 0, { s1 with dxcProducts := [] })
      else (loss0, [], 0, s1)
    else (loss0, [], 0, s1)
  let e1 := postCollisionEnergy e step.1 (s.rgas igas) o.ctheta0 o.sqrtArg small
  (⟨true, false, typ, lv, e1, step.2.1, step.2.2.1⟩, step.2.2.2)

/-- Rebuild check of `GetElectronCollision` (lines 624-631): on a dirty
table run `Mixer()`; failure aborts the call, success clears the dirty
flag. -/
def gecChanged (small : ℚ) (s : SessionState) (e : ℚ) (o : CollisionOracle) :
    CollisionOutcome × SessionState :=
  if s.isChanged then
    if o.mixerOutcome.1 then
      gecSample small { o.mixerOutcome.2 with isChanged := false } e o
    else (⟨false, true, 0, 0, 0, [], 0⟩, o.mixerOutcome.2)
  else gecSample small s e o

/-- `GetElectronCollision` (lines 606-833): the energy validation
(auto-extension of the range, rejection of non-positive energies),
then the rebuild check and the sampling core. -/
def getElectronCollision (small : ℚ) (s : SessionState) (e : ℚ)
    (o : CollisionOracle) : CollisionOutcome × SessionState :=
  if s.eFinal < e ∧ s.useAutoAdjust = true then
    gecChanged small (setMaxElectronEnergy small s (21/20 * e)) e o
  else if e ≤ 0 then (⟨false, true, 0, 0, 0, [], 0⟩, s)
  else gecChanged small s e o

/-- Result of a collision-rate query: the rate and whether a
diagnostic was written to `std::cerr`. -/
structure RateOutcome where
  rate : ℚ
  errorReported : Bool

/-- Body of `GetElectronCollisionRate` after the validations: rebuild
check, then the bin lookup (linear) or log-log interpolation (whose
transcendental value arrives via the oracle). -/
def gecrBody (err : Bool) (s : SessionState) (e : ℚ) (o : CollisionOracle) :
    RateOutcome × SessionState :=
  if s.isChanged then
    if o.mixerOutcome.1 then
      let s2 := { o.mixerOutcome.2 with isChanged := false }
      if e ≤ s2.eHigh then (⟨s2.cfTot.getD (linBinIdx s2 e) 0, err⟩, s2)
      else (⟨o.logInterp, err⟩, s2)
    else (⟨0, true⟩, o.mixerOutcome.2)
  else
    if e ≤ s.eHigh then (⟨s.cfTot.getD (linBinIdx s e) 0, err⟩, s)
    else (⟨o.logInterp, err⟩, s)

/-- `GetElectronCollisionRate` (lines 513-560): a non-positive energy
is reported and answered with the first linear bin's total rate,
mutating nothing; otherwise auto-extension, rebuild check and lookup. -/
def getElectronCollisionRate (small : ℚ) (s : SessionState) (e : ℚ)
    (o : CollisionOracle) : RateOutcome × SessionState :=
  if e ≤ 0 then (⟨s.cfTot.getD 0 0, true⟩, s)
  else if s.eFinal < e ∧ s.useAutoAdjust = true then
    gecrBody true (setMaxElectronEnergy small s (21/20 * e)) e o
  else gecrBody false s e o

/-- `ResetCollisionCounters` (lines 979-985). -/
def resetCollisionCounters (s : SessionState) : SessionState :=
  { s with
    nCollisions := fun _ => 0
    nCollisionsDetailed := fun _ => 0
    nPenning := 0 }

/-- `GetNumberOfElectronCollisions()` (lines 987-990):
`std::accumulate` over the six per-type counters. -/
def getNumberOfElectronCollisions (s : SessionState) : ℕ :=
  ∑ t ∈ Finset.range nCsTypes, s.nCollisions t

/-! ## Mixer front end: table reset and the capacity check (C6)

`Mixer` (line 1409) first reassigns every rate table to zeros (lines
1434-1451) and sets `m_nTerms = 0` (line 1505); only then does the gas
loop run, and a capacity overflow (lines 1556-1562) aborts with
`false`, leaving the freshly zeroed tables behind.  `m_cfNull` is only
assigned near the end of a successful run, so it keeps its prior value
on abort. -/

/-- Data `Mixer` receives from `gasmix_` for one gas, as far as the
term accounting needs it: the number of inelastic and of ionisation
cross-sections, the ionisation thresholds `eIon`, and the gross
ionisation threshold `e[2]`. -/
structure GasSpec where
  nIn : ℕ
  nIon : ℕ
  eIon : List ℚ
  e2 : ℚ

/-- Number of ionisation terms entered for one gas (lines 1583-1612):
one per threshold not exceeding `m_eFinal` when the gas has several
ionisation cross-sections, else a single gross term if
`m_eFinal >= e[2]`. -/
def ionTermCount (eFinal : ℚ) (g : GasSpec) : ℕ :=
  if 1 < g.nIon then (g.eIon.filter (fun ei => decide (ei ≤ eFinal))).length
  else if g.e2 ≤ eFinal then 1 else 0

/-- The gas loop's term accounting with the capacity check
`np0 + nIn + nIon + 1 >= nMaxLevels` (lines 1556-1562): `none` on
overflow; otherwise the accumulated term count (elastic + ionisation +
attachment + inelastic terms per gas). -/
def mixerGasLoop (eFinal : ℚ) : ℕ → List GasSpec → Option ℕ
  | nTerms, [] => some nTerms
  | nTerms, g :: gs =>
      if nMaxLevels ≤ nTerms + g.nIn + g.nIon + 1 then none
      else mixerGasLoop eFinal (nTerms + 1 + ionTermCount eFinal g + 1 + g.nIn) gs

/-- Table reset at `Mixer` entry (lines 1434-1451 and 1505): performed
before any validation or capacity check. -/
def mixerReset (s : SessionState) : SessionState :=
  { s with
    cfTot := List.replicate nEnergySteps 0
    cf := fun _ _ => 0
    cfTotLog := List.replicate nEnergyStepsLog 0
    cfLog := fun _ _ => 0
    iDeexcitation := fun _ => -1
    minIonPot := -1
    nTerms := 0 }

/-- `Mixer` front end: the reset followed by the gas loop.  On capacity
overflow the call returns `false` with the cleared tables; on success
it proceeds to fill the tables (per-bin construction verified above)
carrying the final term count. -/
def mixerCapacityPhase (s : SessionState) (gases : List GasSpec) :
    Bool × SessionState :=
  match mixerGasLoop (mixerReset s).eFinal 0 gases with
  | none => (false, mixerReset s)
  | some n => (true, { mixerReset s with nTerms := n })

/-! ## De-excitation level scan (C7)

`ComputeDeexcitationTable` extracts a 7-character Magboltz label from
each argon excitation term (lines 2043-2060); a label not in
`levelNamesAr` is reported to `std::cerr` and the term is skipped.  The
function returns `void`: neither this diagnostic nor the later
`Missing de-excitation data` early return (lines 2337-2345) propagates
any error, and `Mixer` returns `true` regardless (lines 1896-1933,
ending in the unconditional `return true`). -/

/-- The Magboltz level descriptions carrying de-excitation data: the
keys of `levelNamesAr` (lines 2022-2041). -/
def knownArMagboltzLabels : List String :=
  ["1S5    ", "1S4    ", "1S3    ", "1S2    ",
   "2P10   ", "2P9    ", "2P8    ", "2P7    ", "2P6    ",
   "2P5    ", "2P4    ", "2P3    ", "2P2    ", "2P1    ",
   "3D6    ", "3D5    ", "3D3    ", "3D4!   ", "3D4    ",
   "3D1!!  ", "2S5    ", "2S4    ", "3D1!   ", "3D2    ",
   "3S1!!!!", "3S1!!  ", "3S1!!! ", "2S3    ", "2S2    ",
   "3S1!   ", "4D5    ", "3S4    ", "4D2    ", "4S1!   ",
   "3S2    ", "5D5    ", "4S4    ", "5D2    ", "6D5    ",
   "5S1!   ", "4S2    ", "5S4    ", "6D2    ", "HIGH   "]

/-- The internal level each known Magboltz label maps to
(`levelNamesAr` composed with the table of §`arChannels`). -/
def arLevelOfLabel (lbl : String) : Option ArLevel :=
  List.lookup lbl
    [("1S5    ", ArLevel.ar1S5), ("1S4    ", ArLevel.ar1S4),
     ("1S3    ", ArLevel.ar1S3), ("1S2    ", ArLevel.ar1S2),
     ("2P10   ", ArLevel.ar2P10), ("2P9    ", ArLevel.ar2P9),
     ("2P8    ", ArLevel.ar2P8), ("2P7    ", ArLevel.ar2P7),
     ("2P6    ", ArLevel.ar2P6), ("2P5    ", ArLevel.ar2P5),
     ("2P4    ", ArLevel.ar2P4), ("2P3    ", ArLevel.ar2P3),
     ("2P2    ", ArLevel.ar2P2), ("2P1    ", ArLevel.ar2P1),
     ("3D6    ", ArLevel.ar3D6), ("3D5    ", ArLevel.ar3D5),
     ("3D3    ", ArLevel.ar3D3), ("3D4!   ", ArLevel.ar3D4b),
     ("3D4    ", ArLevel.ar3D4), ("3D1!!  ", ArLevel.ar3D1bb),
     ("2S5    ", ArLevel.ar2S5), ("2S4    ", ArLevel.ar2S4),
     ("3D1!   ", ArLevel.ar3D1b), ("3D2    ", ArLevel.ar3D2),
     ("3S1!!!!", ArLevel.ar3S1bbbb), ("3S1!!  ", ArLevel.ar3S1bb),
     ("3S1!!! ", ArLevel.ar3S1bbb), ("2S3    ", ArLevel.ar2S3),
     ("2S2    ", ArLevel.ar2S2), ("3S1!   ", ArLevel.ar3S1b),
     ("4D5    ", ArLevel.ar4D5), ("3S4    ", ArLevel.ar3S4),
     ("4D2    ", ArLevel.ar4D2), ("4S1!   ", ArLevel.ar4S1b),
     ("3S2    ", ArLevel.ar3S2), ("5D5    ", ArLevel.ar5D5),
     ("4S4    ", ArLevel.ar4S4), ("5D2    ", ArLevel.ar5D2),
     ("6D5    ", ArLevel.ar6D5), ("5S1!   ", ArLevel.ar5S1b),
     ("4S2    ", ArLevel.ar4S2), ("5S4    ", ArLevel.ar5S4),
     ("6D2    ", ArLevel.ar6D2), ("HIGH   ", ArLevel.arHigher)]

/-- Scan of the argon excitation terms (lines 2043-2060): a term whose
label resolves is mapped; an unknown label is counted (the code writes
the diagnostic) and skipped. -/
def scanArLevels : List (ℕ × String) → List (ℕ × ArLevel) × ℕ
  | [] => ([], 0)
  | (i, lbl) :: rest =>
      let r := scanArLevels rest
      match arLevelOfLabel lbl with
      | some l => ((i, l) :: r.1, r.2)
      | none => (r.1, r.2 + 1)

/-- De-excitation set-up as `Mixer` sees it: the scan result together
with `Mixer`'s return value, which is `true` unconditionally on this
path (`ComputeDeexcitationTable` is `void`; a consistency mismatch or a
photon-table failure only disables de-excitation). -/
def mixerDeexcitationPhase (terms : List (ℕ × String)) :
    (List (ℕ × ArLevel) × ℕ) × Bool :=
  (scanArLevels terms, true)

/-! ## Theorems on the Mixer capacity abort (C6) -/

/-- C6 as stated: when the capacity check aborts the rebuild, the
total-rate table, the cumulative-probability table and the
null-collision rate all keep their prior values. -/
def claimC6 : Prop :=
  ∀ (s : SessionState) (gases : List GasSpec),
    (mixerCapacityPhase s gases).1 = false →
    (mixerCapacityPhase s gases).2.cfTot = s.cfTot ∧
    (mixerCapacityPhase s gases).2.cf = s.cf ∧
    (mixerCapacityPhase s gases).2.cfNull = s.cfNull

/-- A session holding a previously built (non-zero) table. -/
def priorSession : SessionState where
  eFinal := 40
  eStep := 1/500
  eHigh := 10000
  lnStep := 1
  useAutoAdjust := true
  isChanged := false
  nTerms := 2
  cf := fun _ _ => 1
  cfLog := fun _ _ => 1
  cfTot := List.replicate nEnergySteps 1
  cfTotLog := List.replicate nEnergyStepsLog 1
  cfNull := 7
  csType := fun _ => 0
  energyLoss := fun _ => 0
  rgas := fun _ => 2
  rPenning := fun _ => 0
  lambdaPenning := fun _ => 0
  minIonPot := 11
  usePenning := false
  useDeexcitation := false
  iDeexcitation := fun _ => -1
  nCollisions := fun _ => 0
  nCollisionsDetailed := fun _ => 0
  nPenning := 0
  dxcProducts := []

/-- A gas whose inelastic term count overflows the level table. -/
def overflowGas : GasSpec where
  nIn := 600
  nIon := 0
  eIon := []
  e2 := 0

/-- C6 is false: `Mixer` zeroes the rate tables before the capacity
check, so on the abort the prior `m_cfTot` (here all ones) has already
been replaced by zeros. -/
theorem claimC6_false : claimC6 = False := by
  apply eq_false
  intro h
  have h2 := h priorSession [overflowGas] rfl
  have h3 : (List.replicate nEnergySteps (0 : ℚ)) =
      List.replicate nEnergySteps 1 := h2.1
  have h4 := List.replicate_right_injective
    (by norm_num [nEnergySteps] : nEnergySteps ≠ 0) h3
  norm_num at h4

/-- C6 amended: on a capacity abort `Mixer` returns `false`; the rate
tables have been reset to zeros (their prior contents are lost), the
de-excitation mapping is cleared, while the null-collision rate — only
written near the end of a successful rebuild — keeps its prior value. -/
theorem mixerCapacityPhase_abort (s : SessionState) (gases : List GasSpec)
    (h : (mixerCapacityPhase s gases).1 = false) :
    (mixerCapacityPhase s gases).2.cfTot = List.replicate nEnergySteps 0 ∧
    (mixerCapacityPhase s gases).2.cf = (fun _ _ => (0 : ℚ)) ∧
    (mixerCapacityPhase s gases).2.cfTotLog =
      List.replicate nEnergyStepsLog 0 ∧
    (mixerCapacityPhase s gases).2.cfLog = (fun _ _ => (0 : ℚ)) ∧
    (mixerCapacityPhase s gases).2.iDeexcitation = (fun _ => (-1 : ℤ)) ∧
    (mixerCapacityPhase s gases).2.cfNull = s.cfNull := by
  unfold mixerCapacityPhase at h ⊢
  cases hm : mixerGasLoop (mixerReset s).eFinal 0 gases with
  | none =>
    simp only [hm]
    exact ⟨rfl, rfl, rfl, rfl, rfl, rfl⟩
  | some n =>
    rw [hm] at h
    simp at h

/-- Witness for the amended C6 at the concrete overflowing mixture. -/
theorem mixerCapacityPhase_abort_witness :
    (mixerCapacityPhase priorSession [overflowGas]).1 = false ∧
    ((mixerCapacityPhase priorSession [overflowGas]).2.cfTot =
        List.replicate nEnergySteps 0 ∧
      (mixerCapacityPhase priorSession [overflowGas]).2.cf =
        (fun _ _ => (0 : ℚ)) ∧
      (mixerCapacityPhase priorSession [overflowGas]).2.cfTotLog =
        List.replicate nEnergyStepsLog 0 ∧
      (mixerCapacityPhase priorSession [overflowGas]).2.cfLog =
        (fun _ _ => (0 : ℚ)) ∧
      (mixerCapacityPhase priorSession [overflowGas]).2.iDeexcitation =
        (fun _ => (-1 : ℤ)) ∧
      (mixerCapacityPhase priorSession [overflowGas]).2.cfNull =
        priorSession.cfNull) :=
  ⟨rfl, mixerCapacityPhase_abort priorSession [overflowGas] rfl⟩

/-! ## Theorems on the unknown-level diagnostic (C7) -/

/-- C7 as stated: an excitation level whose label has no knowledge-base
entry makes the build fail. -/
def claimC7 : Prop :=
  ∀ terms : List (ℕ × String),
    0 < (scanArLevels terms).2 →
    (mixerDeexcitationPhase terms).2 = false

/-- C7 is false: with a single argon excitation term labelled
`"XX     "` the scan reports one unknown level, yet the build completes
and `Mixer` returns `true`. -/
theorem claimC7_false : claimC7 = False := by
  apply eq_false
  intro h
  have h2 := h [(0, "XX     ")] (by decide)
  rw [mixerDeexcitationPhase] at h2
  simp at h2

/-- C7 amended: an unknown label is reported and skipped — it gets no
entry in the de-excitation mapping — but the rebuild completes
successfully (`Mixer` returns `true`); moreover every label of the
knowledge base resolves to a level of the channel table, so the
`Missing de-excitation data` early return is unreachable for mapped
levels. -/
theorem mixerDeexcitationPhase_tolerates_unknown :
    (∀ terms : List (ℕ × String), (mixerDeexcitationPhase terms).2 = true) ∧
    (∀ terms : List (ℕ × String), ∀ p ∈ (scanArLevels terms).1,
      ∃ lbl, arLevelOfLabel lbl = some p.2) ∧
    (∀ lbl ∈ knownArMagboltzLabels, (arLevelOfLabel lbl).isSome = true) := by
  refine ⟨fun _ => rfl, ?_, by decide⟩
  intro terms
  induction terms with
  | nil => intro p hp; simp [scanArLevels] at hp
  | cons hd tl ih =>
    intro p hp
    obtain ⟨i, lbl⟩ := hd
    rw [scanArLevels] at hp
    cases hl : arLevelOfLabel lbl with
    | some l =>
      rw [hl] at hp
      rcases List.mem_cons.mp hp with heq | hmem
      · exact ⟨lbl, by rw [hl, heq]⟩
      · exact ih p hmem
    | none =>
      rw [hl] at hp
      exact ih p hp

/-! ## Shared evaluation lemmas for the sampling entry point -/

theorem getElectronCollision_eval (small : ℚ) (s : SessionState) (e : ℚ)
    (o : CollisionOracle) (hle : e ≤ s.eFinal) (hpos : 0 < e)
    (hch : s.isChanged = false) :
    getElectronCollision small s e o = gecSample small s e o := by
  have h1 : ¬(s.eFinal < e ∧ s.useAutoAdjust = true) :=
    fun hc => absurd hle (not_le.mpr hc.1)
  unfold getElectronCollision gecChanged
  rw [if_neg h1, if_neg (not_le.mpr hpos), hch]
  simp

theorem gecSample_counters (small : ℚ) (s : SessionState) (e : ℚ)
    (o : CollisionOracle) :
    (gecSample small s e o).2.nCollisions
      = Function.update s.nCollisions (s.csType (gecLevel s e o) % nCsTypes)
          (s.nCollisions (s.csType (gecLevel s e o) % nCsTypes) + 1) ∧
    (gecSample small s e o).2.nCollisionsDetailed
      = Function.update s.nCollisionsDetailed (gecLevel s e o)
          (s.nCollisionsDetailed (gecLevel s e o) + 1) ∧
    (gecSample small s e o).2.nTerms = s.nTerms ∧
    (gecSample small s e o).1.success = true := by
  simp only [gecSample]
  split_ifs <;> simp

theorem selectLevel_lt (cf : ℕ → ℚ) (n : ℕ) (r : ℚ) (hn : 1 ≤ n)
    (hmono : ∀ i j, i ≤ j → j < n → cf i ≤ cf j) :
    selectLevel cf n r < n := by
  unfold selectLevel
  by_cases h1 : r ≤ cf 0
  · rw [if_pos h1]; omega
  · rw [if_neg h1]
    by_cases h2 : cf (n - 1) ≤ r
    · rw [if_pos h2]; omega
    · rw [if_neg h2]
      by_contra hge
      push_neg at hge
      have hb := lowerBoundAux_bounds cf r n 0
      have hbefore := lowerBoundAux_before cf r n 0
        (fun i j _ hij hj => hmono i j hij (by omega)) (n - 1)
        (by omega) (by omega)
      exact h2 (le_of_lt hbefore)

theorem gecLevel_lt (s : SessionState) (e : ℚ) (o : CollisionOracle)
    (hn : 1 ≤ s.nTerms)
    (hmono : ∀ iE i j, i ≤ j → j < s.nTerms → s.cf iE i ≤ s.cf iE j)
    (hmonoLog : ∀ iE i j, i ≤ j → j < s.nTerms → s.cfLog iE i ≤ s.cfLog iE j) :
    gecLevel s e o < s.nTerms := by
  unfold gecLevel
  apply selectLevel_lt _ _ _ hn
  unfold gecBinRow
  by_cases hb : e ≤ s.eHigh
  · rw [if_pos hb]; exact hmono _
  · rw [if_neg hb]; exact hmonoLog _

theorem sum_update_add_one (f : ℕ → ℕ) (n t : ℕ) (ht : t < n) :
    ∑ i ∈ Finset.range n, Function.update f t (f t + 1) i
      = (∑ i ∈ Finset.range n, f i) + 1 := by
  have htm : t ∈ Finset.range n := Finset.mem_range.mpr ht
  rw [Finset.sum_update_of_mem htm, Finset.sdiff_singleton_eq_erase,
    ← Finset.add_sum_erase _ f htm]
  omega

/-! ## Invalid-energy queries (C9) -/

/-- C9.  For a non-positive query energy both `GetElectronCollision`
and `GetElectronCollisionRate` report the error to the caller
(`GetElectronCollision` additionally returns `false`) and mutate no
session state: counters, tables and de-excitation products are
untouched. -/
theorem invalidEnergy_no_mutation (small : ℚ) (s : SessionState) (e : ℚ)
    (o : CollisionOracle) (hf : 0 < s.eFinal) (he : e ≤ 0) :
    (getElectronCollision small s e o).1.success = false ∧
    (getElectronCollision small s e o).1.errorReported = true ∧
    (getElectronCollision small s e o).2 = s ∧
    (getElectronCollisionRate small s e o).1.errorReported = true ∧
    (getElectronCollisionRate small s e o).2 = s := by
  have h1 : ¬(s.eFinal < e ∧ s.useAutoAdjust = true) := by
    rintro ⟨hlt, -⟩
    linarith
  unfold getElectronCollision getElectronCollisionRate
  rw [if_neg h1, if_pos he, if_pos he]
  exact ⟨rfl, rfl, rfl, rfl, rfl⟩

/-- A concrete oracle (its values are irrelevant on the paths the
witnesses exercise). -/
def trivialOracle : CollisionOracle where
  mixerOutcome := (true, priorSession)
  rLevel := 1/3
  logRatio := 0
  esecIon := 1
  rPenningDraw := 0
  cubeRootU := 1/2
  dxcResult := []
  dxcPenning := 0
  ctheta0 := 1
  sqrtArg := 1
  logInterp := 0

/-- Witness for C9 at a concrete session and energy `-1`. -/
theorem invalidEnergy_no_mutation_witness :
    (0 < priorSession.eFinal ∧ (-1 : ℚ) ≤ 0) ∧
    ((getElectronCollision 1 priorSession (-1) trivialOracle).1.success
        = false ∧
      (getElectronCollision 1 priorSession (-1) trivialOracle).1.errorReported
        = true ∧
      (getElectronCollision 1 priorSession (-1) trivialOracle).2
        = priorSession ∧
      (getElectronCollisionRate 1 priorSession (-1) trivialOracle).1.errorReported
        = true ∧
      (getElectronCollisionRate 1 priorSession (-1) trivialOracle).2
        = priorSession) := by
  have hf : (0 : ℚ) < priorSession.eFinal := by norm_num [priorSession]
  exact ⟨⟨hf, by norm_num⟩,
    invalidEnergy_no_mutation 1 priorSession (-1) trivialOracle hf (by norm_num)⟩

/-! ## Collision-counter consistency (C10) -/

/-- C10.  Every successful `GetElectronCollision` increments exactly
one of the six per-type counters and exactly one per-level counter, so
the aggregate `GetNumberOfElectronCollisions()` (the sum of the six
per-type counters) and the sum of the per-level counters advance in
lock step; `ResetCollisionCounters` zeroes both families together. -/
theorem collisionCounters_consistent (small : ℚ) (s : SessionState) (e : ℚ)
    (o : CollisionOracle) (hle : e ≤ s.eFinal) (hpos : 0 < e)
    (hch : s.isChanged = false) (hn : 1 ≤ s.nTerms)
    (hmono : ∀ iE i j, i ≤ j → j < s.nTerms → s.cf iE i ≤ s.cf iE j)
    (hmonoLog : ∀ iE i j, i ≤ j → j < s.nTerms → s.cfLog iE i ≤ s.cfLog iE j) :
    (getElectronCollision small s e o).1.success = true ∧
    (∃ t, t < nCsTypes ∧
      (getElectronCollision small s e o).2.nCollisions
        = Function.update s.nCollisions t (s.nCollisions t + 1)) ∧
    (∃ l, l < s.nTerms ∧
      (getElectronCollision small s e o).2.nCollisionsDetailed
        = Function.update s.nCollisionsDetailed l
            (s.nCollisionsDetailed l + 1)) ∧
    getNumberOfElectronCollisions (getElectronCollision small s e o).2
      = getNumberOfElectronCollisions s + 1 ∧
    (∑ l ∈ Finset.range s.nTerms,
        (getElectronCollision small s e o).2.nCollisionsDetailed l
      = (∑ l ∈ Finset.range s.nTerms, s.nCollisionsDetailed l) + 1) ∧
    (getNumberOfElectronCollisions s
        = ∑ l ∈ Finset.range s.nTerms, s.nCollisionsDetailed l →
      getNumberOfElectronCollisions (getElectronCollision small s e o).2
        = ∑ l ∈ Finset.range s.nTerms,
            (getElectronCollision small s e o).2.nCollisionsDetailed l) ∧
    (∀ s3 : SessionState,
      getNumberOfElectronCollisions (resetCollisionCounters s3) = 0 ∧
      ∑ l ∈ Finset.range s3.nTerms,
        (resetCollisionCounters s3).nCollisionsDetailed l = 0) := by
  have heval := getElectronCollision_eval small s e o hle hpos hch
  have hc := gecSample_counters small s e o
  have hlv := gecLevel_lt s e o hn hmono hmonoLog
  have htyp : s.csType (gecLevel s e o) % nCsTypes < nCsTypes :=
    Nat.mod_lt _ (by norm_num [nCsTypes])
  rw [heval]
  refine ⟨hc.2.2.2, ⟨_, htyp, hc.1⟩, ⟨_, hlv, hc.2.1⟩, ?_, ?_, ?_, ?_⟩
  · rw [getNumberOfElectronCollisions, getNumberOfElectronCollisions, hc.1]
    exact sum_update_add_one _ _ _ htyp
  · rw [hc.2.1]
    exact sum_update_add_one _ _ _ hlv
  · intro hinv
    rw [getNumberOfElectronCollisions, hc.1, hc.2.1,
      sum_update_add_one _ _ _ htyp, sum_update_add_one _ _ _ hlv]
    rw [getNumberOfElectronCollisions] at hinv
    omega
  · intro s3
    constructor
    · rw [getNumberOfElectronCollisions]
      simp [resetCollisionCounters]
    · simp [resetCollisionCounters]

/-- Witness for C10 at a concrete session and energy 1 eV. -/
theorem collisionCounters_consistent_witness :
    ((1 : ℚ) ≤ priorSession.eFinal ∧ (0 : ℚ) < 1 ∧
      priorSession.isChanged = false ∧ 1 ≤ priorSession.nTerms) ∧
    (getElectronCollision 1 priorSession 1 trivialOracle).1.success = true ∧
    getNumberOfElectronCollisions
        (getElectronCollision 1 priorSession 1 trivialOracle).2
      = getNumberOfElectronCollisions priorSession + 1 := by
  have hmono : ∀ iE i j, i ≤ j → j < priorSession.nTerms →
      priorSession.cf iE i ≤ priorSession.cf iE j := by
    intro iE i j _ _; norm_num [priorSession]
  have hmonoLog : ∀ iE i j, i ≤ j → j < priorSession.nTerms →
      priorSession.cfLog iE i ≤ priorSession.cfLog iE j := by
    intro iE i j _ _; norm_num [priorSession]
  have h := collisionCounters_consistent 1 priorSession 1 trivialOracle
    (by norm_num [priorSession]) (by norm_num)
    (by norm_num [priorSession]) (by norm_num [priorSession]) hmono hmonoLog
  exact ⟨⟨by norm_num [priorSession], by norm_num,
    by norm_num [priorSession], by norm_num [priorSession]⟩,
    h.1, h.2.2.2.1⟩

/-! ## Simplified Penning transfer (C8) -/

/-- C8.  In a simplified-Penning configuration (Penning transfer on,
de-excitation off) with `rPenning = 1` at a sampled excitation level
whose gas-frame threshold exceeds the minimum ionisation potential,
the call emits exactly one de-excitation product: an electron of energy
`threshold - minIonPot` (the `Small` floor cannot engage since the
difference is positive), and the Penning counter advances by one. -/
theorem penning_single_secondary (small : ℚ) (s : SessionState) (e : ℚ)
    (o : CollisionOracle) (hle : e ≤ s.eFinal) (hpos : 0 < e)
    (hch : s.isChanged = false)
    (hexc : s.csType (gecLevel s e o) % nCsTypes = 4)
    (hdeex : s.useDeexcitation = false) (hpen : s.usePenning = true)
    (hthr : s.minIonPot < s.energyLoss (gecLevel s e o) *
      s.rgas (s.csType (gecLevel s e o) / nCsTypes))
    (hr1 : s.rPenning (gecLevel s e o) = 1) (hdraw1 : o.rPenningDraw < 1) :
    (getElectronCollision small s e o).1.ndxc = 1 ∧
    (getElectronCollision small s e o).2.dxcProducts =
      [⟨(if small < s.lambdaPenning (gecLevel s e o) then
            s.lambdaPenning (gecLevel s e o) * o.cubeRootU else 0), 0,
        DxcProdType.electron,
        s.energyLoss (gecLevel s e o) *
          s.rgas (s.csType (gecLevel s e o) / nCsTypes) - s.minIonPot⟩] ∧
    (getElectronCollision small s e o).2.nPenning = s.nPenning + 1 := by
  rw [getElectronCollision_eval small s e o hle hpos hch]
  simp only [gecSample]
  rw [hexc]
  rw [if_neg (by norm_num : ¬(4 : ℕ) = 1), if_pos rfl]
  rw [if_neg (by rw [hdeex]; simp : ¬(s.useDeexcitation = true ∧
    0 ≤ s.iDeexcitation (gecLevel s e o)))]
  rw [if_pos hpen]
  rw [hr1]
  rw [if_pos ⟨hthr, hdraw1⟩]
  rw [if_neg (not_le.mpr (by linarith))]
  exact ⟨rfl, rfl, rfl⟩

/-- A simplified-Penning session: one excitation level with gas-frame
threshold 13 eV, minimum ionisation potential 11 eV, `rPenning = 1`. -/
def penningSession : SessionState where
  eFinal := 40
  eStep := 1/500
  eHigh := 10000
  lnStep := 1
  useAutoAdjust := true
  isChanged := false
  nTerms := 1
  cf := fun _ _ => 1
  cfLog := fun _ _ => 1
  cfTot := List.replicate nEnergySteps 1
  cfTotLog := List.replicate nEnergyStepsLog 1
  cfNull := 7
  csType := fun _ => 4
  energyLoss := fun _ => 13/2
  rgas := fun _ => 2
  rPenning := fun _ => 1
  lambdaPenning := fun _ => 0
  minIonPot := 11
  usePenning := true
  useDeexcitation := false
  iDeexcitation := fun _ => -1
  nCollisions := fun _ => 0
  nCollisionsDetailed := fun _ => 0
  nPenning := 0
  dxcProducts := []

/-- Witness for C8: at this session every excitation collision emits
exactly one electron of energy `13 - 11 = 2` eV. -/
theorem penning_single_secondary_witness :
    ((1 : ℚ) ≤ penningSession.eFinal ∧ (0 : ℚ) < 1 ∧
      penningSession.isChanged = false ∧
      penningSession.csType (gecLevel penningSession 1 trivialOracle) %
        nCsTypes = 4 ∧
      penningSession.useDeexcitation = false ∧
      penningSession.usePenning = true ∧
      penningSession.minIonPot <
        penningSession.energyLoss (gecLevel penningSession 1 trivialOracle) *
          penningSession.rgas
            (penningSession.csType (gecLevel penningSession 1 trivialOracle) /
              nCsTypes) ∧
      penningSession.rPenning (gecLevel penningSession 1 trivialOracle) = 1 ∧
      trivialOracle.rPenningDraw < 1) ∧
    ((getElectronCollision 1 penningSession 1 trivialOracle).1.ndxc = 1 ∧
      (getElectronCollision 1 penningSession 1 trivialOracle).2.dxcProducts =
        [⟨(if (1 : ℚ) <
              penningSession.lambdaPenning
                (gecLevel penningSession 1 trivialOracle) then
            penningSession.lambdaPenning
                (gecLevel penningSession 1 trivialOracle) *
              trivialOracle.cubeRootU
          else 0), 0, DxcProdType.electron,
          penningSession.energyLoss (gecLevel penningSession 1 trivialOracle) *
            penningSession.rgas
              (penningSession.csType
                  (gecLevel penningSession 1 trivialOracle) / nCsTypes) -
            penningSession.minIonPot⟩] ∧
      (getElectronCollision 1 penningSession 1 trivialOracle).2.nPenning =
        penningSession.nPenning + 1) := by
  have hle : (1 : ℚ) ≤ penningSession.eFinal := by norm_num [penningSession]
  have hthr : penningSession.minIonPot <
      penningSession.energyLoss (gecLevel penningSession 1 trivialOracle) *
        penningSession.rgas
          (penningSession.csType (gecLevel penningSession 1 trivialOracle) /
            nCsTypes) := by norm_num [penningSession]
  have hdraw : trivialOracle.rPenningDraw < 1 := by norm_num [trivialOracle]
  exact ⟨⟨hle, by norm_num, rfl, rfl, rfl, rfl, hthr, rfl, hdraw⟩,
    penning_single_secondary 1 penningSession 1 trivialOracle hle
      (by norm_num) rfl rfl rfl rfl hthr rfl hdraw⟩

end MediumMagboltz
